import Mathlib

/-!
Verification development for the table-population core of the repository:
the CREATE TABLE schema parser, the type/name-driven fake-value generator,
and the batch populator of `populate_tables_generic.py`.

The Python code is shallowly embedded: strings are Lean strings manipulated
through their character lists, the regex searches of the source are modelled
by explicit leftmost-match scanners over the same patterns, the global Faker
instance is modelled by a stream of entropy records (`FakeGen`), and the
database cursor/connection pair is modelled by a trace of `Event`s together
with an executor behaviour function saying which execute call fails.
-/

namespace Populate

/-! ### Python string primitives -/

/-- Model of the Python expression `needle in hay` restricted to a check that
`needle` occurs at the start of `hay`. -/
def leadMatch : List Char → List Char → Bool
  | [], _ => true
  | _ :: _, [] => false
  | a :: as, b :: bs => if a = b then leadMatch as bs else false

/-- Model of the Python substring test `needle in hay` on character lists. -/
def hasSubL (needle : List Char) : List Char → Bool
  | [] => leadMatch needle []
  | c :: t => leadMatch needle (c :: t) || hasSubL needle t

/-- Substring containment on strings: Python `needle in hay`. -/
def strHasSub (hay needle : String) : Bool :=
  hasSubL needle.data hay.data

/-- Model of Python `s.startswith(pre)`. -/
def pyStartsWith (s pre : String) : Bool :=
  leadMatch pre.data s.data

/-- Model of Python `str.upper()` (ASCII inputs). -/
def upperStr (s : String) : String :=
  String.mk (s.data.map Char.toUpper)

/-- Model of Python `str.lower()` (ASCII inputs). -/
def lowerStr (s : String) : String :=
  String.mk (s.data.map Char.toLower)

/-- Strip leading and trailing whitespace from a character list. -/
def stripL (l : List Char) : List Char :=
  ((l.dropWhile Char.isWhitespace).reverse.dropWhile Char.isWhitespace).reverse

/-- Model of Python `str.strip()` with no arguments. -/
def pyStrip (s : String) : String :=
  String.mk (stripL s.data)

/-- Split a character list on a separator character, keeping empty pieces:
Python `str.split(sep)`. -/
def splitOnSep (sep : Char) : List Char → List (List Char)
  | [] => [[]]
  | c :: cs =>
    let r := splitOnSep sep cs
    if c = sep then [] :: r
    else
      match r with
      | h :: t => (c :: h) :: t
      | [] => [[c]]

/-- Split a character list on whitespace, keeping empty pieces. -/
def splitWsL : List Char → List (List Char)
  | [] => [[]]
  | c :: cs =>
    let r := splitWsL cs
    if c.isWhitespace then [] :: r
    else
      match r with
      | h :: t => (c :: h) :: t
      | [] => [[c]]

/-- Model of Python `str.split()` with no arguments: split on whitespace runs
and drop empty pieces. -/
def pySplitWs (s : String) : List String :=
  ((splitWsL s.data).map String.mk).filter (fun t => t ≠ "")

/-- Model of Python `str.strip(',')`: remove leading and trailing commas. -/
def stripCommaEnds (s : String) : String :=
  String.mk (((s.data.dropWhile (fun c => c = ',')).reverse.dropWhile
    (fun c => c = ',')).reverse)

/-- Model of the Python slice `s[:n]`. -/
def pySlice (s : String) (n : Nat) : String :=
  String.mk (s.data.take n)

/-- Value of a nonempty run of decimal digits: Python `int(text)`. -/
def digitsToNat (ds : List Char) : Nat :=
  ds.foldl (fun a c => 10 * a + (c.toNat - 48)) 0

/-! ### Leftmost regex searches of the source

`re.search(r'\((\d+)\)', t)` on the declared type: find the leftmost
parenthesized digit run followed directly by a closing parenthesis. -/

def parenLenL : List Char → Option Nat
  | [] => none
  | c :: rest =>
    if c = '(' then
      let ds := rest.takeWhile Char.isDigit
      if ds = [] then parenLenL rest
      else
        match rest.dropWhile Char.isDigit with
        | d :: _ =>
          if d = ')' then some (digitsToNat ds) else parenLenL rest
        | [] => parenLenL rest
    else parenLenL rest

/-- Length suffix of a declared type: `re.search(r'\((\d+)\)', col_type)`. -/
def parenLen (t : String) : Option Nat :=
  parenLenL t.data

/-- Word characters of the regex class `\w` (ASCII inputs). -/
def wordChar (c : Char) : Bool :=
  c.isAlpha || c.isDigit || c = '_'

/-- Case-insensitive literal match; the literal is given in upper case.
Returns the remaining input on success. -/
def matchLitCI : List Char → List Char → Option (List Char)
  | [], s => some s
  | l :: ls, c :: cs => if c.toUpper = l then matchLitCI ls cs else none
  | _ :: _, [] => none

/-- Regex `\s+`: at least one whitespace character, consumed greedily. -/
def matchWs1 (s : List Char) : Option (List Char) :=
  match s with
  | c :: cs => if c.isWhitespace then some (cs.dropWhile Char.isWhitespace) else none
  | [] => none

/-- Match of the common pattern head `CREATE\s+TABLE\s+` at this position. -/
def matchCreatePre (s : List Char) : Option (List Char) :=
  match matchLitCI "CREATE".data s with
  | none => none
  | some s1 =>
    match matchWs1 s1 with
    | none => none
    | some s2 =>
      match matchLitCI "TABLE".data s2 with
      | none => none
      | some s3 => matchWs1 s3

/-- Match of `CREATE\s+TABLE\s+(\w+)` at this position, returning the
captured table name. -/
def nameAt (s : List Char) : Option (List Char) :=
  match matchCreatePre s with
  | none => none
  | some rest =>
    let w := rest.takeWhile wordChar
    if w = [] then none else some w

/-- Leftmost search for `CREATE\s+TABLE\s+(\w+)` with `re.IGNORECASE`:
`re.search` at line 138 of the source. -/
def searchName : List Char → Option (List Char)
  | [] => none
  | c :: cs =>
    match nameAt (c :: cs) with
    | some w => some w
    | none => searchName cs

/-- Match of `CREATE\s+TABLE\s+\w+\s*\((.*)\)` at this position under
`re.DOTALL`: the greedy `.*` captures up to the last closing parenthesis of
the remaining input. -/
def defAt (s : List Char) : Option (List Char) :=
  match matchCreatePre s with
  | none => none
  | some rest =>
    let w := rest.takeWhile wordChar
    if w = [] then none
    else
      match (rest.dropWhile wordChar).dropWhile Char.isWhitespace with
      | c :: r3 =>
        if c = '(' then
          match r3.reverse.dropWhile (fun d => d != ')') with
          | [] => none
          | _ :: tail => some tail.reverse
        else none
      | [] => none

/-- Leftmost search for the table-definition block:
`re.search(r'CREATE\s+TABLE\s+\w+\s*\((.*)\)', ..., re.IGNORECASE | re.DOTALL)`
at line 149 of the source. -/
def searchDef : List Char → Option (List Char)
  | [] => none
  | c :: cs =>
    match defAt (c :: cs) with
    | some g => some g
    | none => searchDef cs

/-! ### Column model and schema parser -/

/-- One parsed column: the dict built at lines 166-171 of the source. -/
structure Column where
  name : String
  type : String
  nullable : Bool
  has_default : Bool
deriving DecidableEq

/-- Parser output: the dict returned at lines 173-177 of the source. -/
structure TableSchema where
  table_name : String
  columns : List Column
  file_path : String
deriving DecidableEq

/-- Processing of one candidate line of the column block: lines 155-171 of
the source. Comment lines, constraint lines, short lines and identity
columns produce no column. -/
def parseColLine (rawLine : String) : Option Column :=
  let line := pyStrip rawLine
  if line = "" then none
  else if pyStartsWith line "--" then none
  else if strHasSub (upperStr line) "PRIMARY KEY" then none
  else if strHasSub (upperStr line) "CONSTRAINT" then none
  else
    match pySplitWs line with
    | p0 :: p1 :: _ =>
      if strHasSub (upperStr line) "IDENTITY" then none
      else some ⟨stripCommaEnds p0, upperStr p1,
        ! strHasSub (upperStr line) "NOT NULL",
        strHasSub (upperStr line) "DEFAULT"⟩
    | _ => none

/-- `TablePopulator.parse_table_schema`, lines 131-181 of the source, with
the file content passed directly in place of the file read. Returns `none`
when no table name is found; when the column block is not found the column
list is empty. -/
def parse_table_schema (file_path sql_content : String) : Option TableSchema :=
  match searchName sql_content.data with
  | none => none
  | some tn =>
    let columns :=
      match searchDef sql_content.data with
      | none => ([] : List Column)
      | some dchars => ((splitOnSep '\n' dchars).map String.mk).filterMap parseColLine
    some ⟨String.mk tn, columns, file_path⟩

/-! ### Fake-value generator

The global Faker instance is modelled by an entropy record per call: each
generator method of the library is an opaque field, and the bounded random
draws are realized from raw entropy so that the documented ranges hold. -/

/-- One entropy record of the modelled Faker instance. -/
structure FakeGen where
  street_address : String
  city : String
  state_abbr : String
  postcode : String
  first_name : String
  last_name : String
  full_name : String
  email : String
  phone_number : String
  company : String
  text_fn : Nat → String
  rand_nat : Nat
  unif_nat : Nat
  bool_val : Bool
  word : String
  birth_date : Nat
  dt_between : Nat

/-- A generated value bound as one insert parameter. -/
inductive Value where
  | vint (i : Int)
  | vdec (q : Rat)
  | vstr (s : String)
  | vbool (b : Bool)
  | vdate (kind : String) (n : Nat)
deriving DecidableEq

/-- `fake.random_int(min=lo, max=hi)`: a value in `[lo, hi]`, realized from
the raw entropy of the current record. -/
def random_int (lo hi : Int) (g : FakeGen) : Int :=
  lo + ((g.rand_nat % (hi - lo + 1).toNat : Nat) : Int)

/-- `fake.random.uniform(a, b)`: a value in `[a, b]`, realized from the raw
entropy of the current record. -/
def uniform2 (a b : Rat) (g : FakeGen) : Rat :=
  a + (b - a) * (((g.unif_nat % 1001 : Nat) : Rat) / 1000)

/-- Python `round(x, 2)` modelled on rationals. -/
def round2 (q : Rat) : Rat :=
  ((round (100 * q) : Int) : Rat) / 100

/-- Guard at line 189 of the source: a defaulted column whose lowered name
contains the word created. -/
def defaultCreatedGuard (column : Column) : Bool :=
  column.has_default && strHasSub (lowerStr column.name) "created"

/-- Guard at line 193: `any(t in col_type for t in [...])` over the string
type keywords. -/
def txtGuard (column : Column) : Bool :=
  ["NVARCHAR", "VARCHAR", "CHAR", "TEXT"].any
    (fun t => strHasSub (upperStr column.type) t)

/-- Guard at line 224 over the integer type keywords. -/
def intGuard (column : Column) : Bool :=
  ["INT", "BIGINT", "SMALLINT"].any (fun t => strHasSub (upperStr column.type) t)

/-- Guard at line 233 over the decimal type keywords. -/
def decGuard (column : Column) : Bool :=
  ["DECIMAL", "FLOAT", "MONEY"].any (fun t => strHasSub (upperStr column.type) t)

/-- Guard at line 240 over the date type keywords. -/
def dateGuard (column : Column) : Bool :=
  ["DATE", "DATETIME", "DATETIME2"].any
    (fun t => strHasSub (upperStr column.type) t)

/-- Guard at line 247: the boolean type keyword. -/
def bitGuard (column : Column) : Bool :=
  strHasSub (upperStr column.type) "BIT"

/-- The string branch of `generate_fake_data`, lines 193-221 of the source. -/
def textBranch (column : Column) (g : FakeGen) : Option Value :=
  let col_name := lowerStr column.name
  if strHasSub col_name "address" || strHasSub col_name "street" then
    some (Value.vstr g.street_address)
  else if strHasSub col_name "city" then some (Value.vstr g.city)
  else if strHasSub col_name "state" then some (Value.vstr g.state_abbr)
  else if strHasSub col_name "postal" || strHasSub col_name "zip" then
    some (Value.vstr g.postcode)
  else if strHasSub col_name "country" then some (Value.vstr "Australia")
  else if strHasSub col_name "name" then
    if strHasSub col_name "first" then some (Value.vstr g.first_name)
    else if strHasSub col_name "last" then some (Value.vstr g.last_name)
    else some (Value.vstr g.full_name)
  else if strHasSub col_name "email" then some (Value.vstr g.email)
  else if strHasSub col_name "phone" then some (Value.vstr g.phone_number)
  else if strHasSub col_name "company" then some (Value.vstr g.company)
  else
    let max_length := (parenLen (upperStr column.type)).getD 50
    some (Value.vstr (pySlice (g.text_fn (max_length / 2)) max_length))

/-- `TablePopulator.generate_fake_data`, lines 183-252 of the source, as a
function of the column and the current entropy record of the shared Faker
instance. `none` models the Python `None` that defers to the database
default. -/
def generate_fake_data (column : Column) (g : FakeGen) : Option Value :=
  if defaultCreatedGuard column then none
  else if txtGuard column then textBranch column g
  else if intGuard column then
    if strHasSub (lowerStr column.name) "age" then
      some (Value.vint (random_int 18 80 g))
    else if strHasSub (lowerStr column.name) "year" then
      some (Value.vint (random_int 1950 2025 g))
    else some (Value.vint (random_int 1 1000 g))
  else if decGuard column then
    if strHasSub (lowerStr column.name) "price" ||
        strHasSub (lowerStr column.name) "cost" ||
        strHasSub (lowerStr column.name) "amount" then
      some (Value.vdec (round2 (uniform2 10 1000 g)))
    else some (Value.vdec (round2 (uniform2 1 100 g)))
  else if dateGuard column then
    if strHasSub (lowerStr column.name) "birth" then
      some (Value.vdate "birth" g.birth_date)
    else some (Value.vdate "datetime" g.dt_between)
  else if bitGuard column then some (Value.vbool g.bool_val)
  else some (Value.vstr g.word)

/-- One call of the generator through the shared global Faker instance: the
instance is a stream of entropy records together with a position, and every
call advances the position. -/
def fake_call (fgen : Nat → FakeGen) (pos : Nat) (column : Column) :
    Option Value × Nat :=
  (generate_fake_data column (fgen pos), pos + 1)

/-! ### Batch populator -/

/-- One observable interaction with the database handle. -/
inductive Event where
  | execute (params : List (Option Value))
  | commit
deriving DecidableEq

/-- Outcome of one populate run: the no-column early return, the row failure
return `False`, or the committed return `True` of lines 254-291. -/
inductive PopResult where
  | noop
  | failed (row : Nat) (cause : Nat)
  | success
deriving DecidableEq

/-- Values of one generated row, lines 275-278 of the source: one generator
call per eligible column, each advancing the shared Faker position. -/
def genRow : List Column → (Nat → FakeGen) → Nat → List (Option Value)
  | [], _, _ => []
  | c :: cs, fgen, pos => generate_fake_data c (fgen pos) :: genRow cs fgen (pos + 1)

/-- The insert loop of lines 274-289: `i` is the zero-based row index, the
last argument the number of rows still to do. The executor behaviour `execB`
gives for each call index the database error it raises, if any; a failing
call is still an issued execute. After a full loop one commit is issued. -/
def populateRows (cols : List Column) (fgen : Nat → FakeGen)
    (execB : Nat → Option Nat) : Nat → Nat → Nat → List Event × PopResult
  | _, _, 0 => ([Event.commit], PopResult.success)
  | pos, i, n + 1 =>
    let params := genRow cols fgen pos
    match execB i with
    | some cause => ([Event.execute params], PopResult.failed (i + 1) cause)
    | none =>
      let rest := populateRows cols fgen execB (pos + cols.length) (i + 1) n
      (Event.execute params :: rest.1, rest.2)

/-- `TablePopulator.populate_table`, lines 254-291 of the source, returning
the trace of executor interactions and the outcome. A Python `record_count`
is an arbitrary integer; `range` of a non-positive count is empty. -/
def populate_table (t : TableSchema) (record_count : Int)
    (fgen : Nat → FakeGen) (execB : Nat → Option Nat) :
    List Event × PopResult :=
  let columns := t.columns.filter (fun c => ! c.has_default)
  if columns = [] then ([], PopResult.noop)
  else populateRows columns fgen execB 0 0 record_count.toNat

/-- Column list of the insert statement built at lines 263-267. -/
def insert_columns (t : TableSchema) : List String :=
  (t.columns.filter (fun c => ! c.has_default)).map (fun c => c.name)

/-- Number of execute events in a trace. -/
def countExec (evs : List Event) : Nat :=
  (evs.filter (fun e => match e with
    | Event.execute _ => true
    | Event.commit => false)).length

/-- Number of commit events in a trace. -/
def countCommit (evs : List Event) : Nat :=
  (evs.filter (fun e => match e with
    | Event.commit => true
    | Event.execute _ => false)).length

/-! ### Substring lemmas

The parser checks its skip conditions on the stripped line, while the spec
speaks about the physical line; the lemmas below transport a substring whose
first and last characters are not whitespace across the strip. -/

theorem leadMatch_iff (n : List Char) : ∀ h : List Char, leadMatch n h = true ↔ n <+: h := by
  induction n with
  | nil => intro h; simp [leadMatch]
  | cons a as ih =>
    intro h
    cases h with
    | nil => simp [leadMatch]
    | cons b bs =>
      by_cases hab : a = b
      · subst hab
        simp [leadMatch, ih, List.cons_prefix_cons]
      · simp [leadMatch, hab, List.cons_prefix_cons]

theorem hasSubL_iff (n : List Char) : ∀ h : List Char, hasSubL n h = true ↔ n <:+: h := by
  intro h
  induction h with
  | nil =>
    simp [hasSubL, leadMatch_iff, List.infix_nil, List.prefix_nil]
  | cons c t ih =>
    simp [hasSubL, leadMatch_iff, ih, List.infix_cons_iff]

theorem ws_cases (c : Char) (h : c.isWhitespace = true) :
    c = ' ' ∨ c = '\t' ∨ c = '\r' ∨ c = '\n' := by
  have := by simpa [Char.isWhitespace] using h
  tauto

theorem neq_upper_of_ws (n0 : Char)
    (h1 : ¬ n0 = ' ') (h2 : ¬ n0 = '\t') (h3 : ¬ n0 = '\r') (h4 : ¬ n0 = '\n') :
    ∀ c, Char.isWhitespace c = true → ¬ (n0 = Char.toUpper c) := by
  intro c hc
  rcases ws_cases c hc with h | h | h | h <;> subst h
  · rw [show Char.toUpper ' ' = ' ' from by decide]; exact h1
  · rw [show Char.toUpper '\t' = '\t' from by decide]; exact h2
  · rw [show Char.toUpper '\r' = '\r' from by decide]; exact h3
  · rw [show Char.toUpper '\n' = '\n' from by decide]; exact h4

theorem hasSub_upper_dropWhile (n0 : Char) (n' : List Char)
    (h0 : ∀ c, Char.isWhitespace c = true → ¬ (n0 = Char.toUpper c)) :
    ∀ l : List Char, hasSubL (n0 :: n') (l.map Char.toUpper) = true →
      hasSubL (n0 :: n') ((l.dropWhile Char.isWhitespace).map Char.toUpper) = true := by
  intro l
  induction l with
  | nil => intro h; simpa using h
  | cons c t ih =>
    intro h
    rw [List.dropWhile_cons]
    by_cases hw : c.isWhitespace = true
    · rw [if_pos hw]
      apply ih
      rw [List.map_cons] at h
      have hlead : leadMatch (n0 :: n') (Char.toUpper c :: t.map Char.toUpper) = false := by
        unfold leadMatch
        rw [if_neg (h0 c hw)]
      unfold hasSubL at h
      rw [hlead] at h
      simpa using h
    · rw [if_neg hw, List.map_cons]
      rw [List.map_cons] at h
      exact h

theorem hasSub_upper_stripL (n0 : Char) (n' : List Char) (r0 : Char) (r' : List Char)
    (hrev : (n0 :: n').reverse = r0 :: r')
    (h0 : ∀ c, Char.isWhitespace c = true → ¬ (n0 = Char.toUpper c))
    (hr : ∀ c, Char.isWhitespace c = true → ¬ (r0 = Char.toUpper c))
    (l : List Char) (h : hasSubL (n0 :: n') (l.map Char.toUpper) = true) :
    hasSubL (n0 :: n') ((stripL l).map Char.toUpper) = true := by
  have step1 := hasSub_upper_dropWhile n0 n' h0 l h
  set l1 := l.dropWhile Char.isWhitespace with hl1
  have h2 : hasSubL (r0 :: r') (l1.reverse.map Char.toUpper) = true := by
    rw [hasSubL_iff] at step1 ⊢
    rw [← hrev, List.map_reverse]
    exact List.reverse_infix.mpr step1
  have h3 := hasSub_upper_dropWhile r0 r' hr l1.reverse h2
  rw [hasSubL_iff] at h3 ⊢
  unfold stripL
  rw [← hl1, List.map_reverse]
  have h4 : (n0 :: n').reverse <:+:
      ((l1.reverse.dropWhile Char.isWhitespace).map Char.toUpper) := by
    rw [hrev]; exact h3
  have h5 := List.reverse_infix.mpr h4
  rwa [List.reverse_reverse] at h5

theorem strip_identity (l : String)
    (h : strHasSub (upperStr l) "IDENTITY" = true) :
    strHasSub (upperStr (pyStrip l)) "IDENTITY" = true := by
  have := hasSub_upper_stripL 'I' "DENTITY".data 'Y' "TITNEDI".data (by decide)
    (neq_upper_of_ws 'I' (by decide) (by decide) (by decide) (by decide))
    (neq_upper_of_ws 'Y' (by decide) (by decide) (by decide) (by decide))
    l.data h
  exact this

theorem strip_primary_key (l : String)
    (h : strHasSub (upperStr l) "PRIMARY KEY" = true) :
    strHasSub (upperStr (pyStrip l)) "PRIMARY KEY" = true := by
  have := hasSub_upper_stripL 'P' "RIMARY KEY".data 'Y' "EK YRAMIRP".data (by decide)
    (neq_upper_of_ws 'P' (by decide) (by decide) (by decide) (by decide))
    (neq_upper_of_ws 'Y' (by decide) (by decide) (by decide) (by decide))
    l.data h
  exact this

theorem strip_constraint (l : String)
    (h : strHasSub (upperStr l) "CONSTRAINT" = true) :
    strHasSub (upperStr (pyStrip l)) "CONSTRAINT" = true := by
  have := hasSub_upper_stripL 'C' "ONSTRAINT".data 'T' "NIARTSNOC".data (by decide)
    (neq_upper_of_ws 'C' (by decide) (by decide) (by decide) (by decide))
    (neq_upper_of_ws 'T' (by decide) (by decide) (by decide) (by decide))
    l.data h
  exact this

/-! ### Parser skip lemmas -/

theorem parseColLine_of_identity (l : String)
    (h : strHasSub (upperStr l) "IDENTITY" = true) : parseColLine l = none := by
  have h2 := strip_identity l h
  simp only [parseColLine]
  by_cases e1 : pyStrip l = ""
  · rw [if_pos e1]
  rw [if_neg e1]
  by_cases e2 : pyStartsWith (pyStrip l) "--" = true
  · rw [if_pos e2]
  rw [if_neg e2]
  by_cases e3 : strHasSub (upperStr (pyStrip l)) "PRIMARY KEY" = true
  · rw [if_pos e3]
  rw [if_neg e3]
  by_cases e4 : strHasSub (upperStr (pyStrip l)) "CONSTRAINT" = true
  · rw [if_pos e4]
  rw [if_neg e4]
  cases hsp : pySplitWs (pyStrip l) with
  | nil => rfl
  | cons p0 rest =>
    cases rest with
    | nil => rfl
    | cons p1 tail => exact if_pos h2

theorem parseColLine_of_constraint (l : String)
    (h : strHasSub (upperStr l) "PRIMARY KEY" = true ∨
      strHasSub (upperStr l) "CONSTRAINT" = true) : parseColLine l = none := by
  simp only [parseColLine]
  by_cases e1 : pyStrip l = ""
  · rw [if_pos e1]
  rw [if_neg e1]
  by_cases e2 : pyStartsWith (pyStrip l) "--" = true
  · rw [if_pos e2]
  rw [if_neg e2]
  rcases h with h | h
  · rw [if_pos (strip_primary_key l h)]
  · by_cases e3 : strHasSub (upperStr (pyStrip l)) "PRIMARY KEY" = true
    · rw [if_pos e3]
    rw [if_neg e3]
    rw [if_pos (strip_constraint l h)]

/-- Modelled from the claim text, for comparison with the code: the eligible
columns described line by line — a line with an identity marker contributes
nothing, and a produced column is kept exactly when its default flag is
false. -/
def eligible_by_line : List String → List Column
  | [] => []
  | l :: ls =>
    if strHasSub (upperStr l) "IDENTITY" then eligible_by_line ls
    else
      match parseColLine l with
      | some c => if c.has_default then eligible_by_line ls else c :: eligible_by_line ls
      | none => eligible_by_line ls

theorem eligible_eq (lines : List String) :
    (lines.filterMap parseColLine).filter (fun c => ! c.has_default) =
      eligible_by_line lines := by
  induction lines with
  | nil => rfl
  | cons l ls ih =>
    rw [List.filterMap_cons]
    by_cases hid : strHasSub (upperStr l) "IDENTITY" = true
    · rw [parseColLine_of_identity l hid]
      simp only [eligible_by_line, if_pos hid]
      exact ih
    · cases hp : parseColLine l with
      | none => simp only [eligible_by_line, if_neg hid, hp]; exact ih
      | some c =>
        by_cases hd : c.has_default = true
        · simp only [eligible_by_line, if_neg hid, hp, if_pos hd, List.filter_cons,
            hd, Bool.not_true, Bool.false_eq_true, if_false]
          exact ih
        · have hd' : c.has_default = false := by simpa using hd
          simp only [eligible_by_line, if_neg hid, hp, hd', List.filter_cons,
            Bool.not_false, if_true, Bool.false_eq_true, if_false]
          rw [ih]

/-! ### Populator trace lemmas -/

theorem genRow_length (cols : List Column) (fgen : Nat → FakeGen) :
    ∀ pos : Nat, (genRow cols fgen pos).length = cols.length := by
  induction cols with
  | nil => intro pos; rfl
  | cons c cs ih => intro pos; simp [genRow, ih]

theorem countExec_map (ps : List (List (Option Value))) :
    countExec (ps.map Event.execute) = ps.length := by
  induction ps with
  | nil => rfl
  | cons p t ih => simpa [countExec, List.filter_cons] using ih

theorem countCommit_map (ps : List (List (Option Value))) :
    countCommit (ps.map Event.execute) = 0 := by
  induction ps with
  | nil => rfl
  | cons p t ih => simp [countCommit, List.filter_cons] at ih ⊢

theorem countExec_append (a b : List Event) :
    countExec (a ++ b) = countExec a + countExec b := by
  simp [countExec, List.filter_append]

theorem countCommit_append (a b : List Event) :
    countCommit (a ++ b) = countCommit a + countCommit b := by
  simp [countCommit, List.filter_append]

theorem populateRows_success (cols : List Column) (fgen : Nat → FakeGen)
    (execB : Nat → Option Nat) :
    ∀ n pos i, (∀ j, j < n → execB (i + j) = none) →
    ∃ ps : List (List (Option Value)),
      populateRows cols fgen execB pos i n =
        (ps.map Event.execute ++ [Event.commit], PopResult.success) ∧
      ps.length = n := by
  intro n
  induction n with
  | zero => intro pos i _; exact ⟨[], rfl, rfl⟩
  | succ m ih =>
    intro pos i h
    have h0 : execB i = none := by simpa using h 0 (Nat.succ_pos m)
    obtain ⟨ps, hps, hl⟩ := ih (pos + cols.length) (i + 1) (fun j hj => by
      have := h (j + 1) (Nat.succ_lt_succ hj)
      rwa [show i + (j + 1) = i + 1 + j by omega] at this)
    refine ⟨genRow cols fgen pos :: ps, ?_, by simp [hl]⟩
    simp only [populateRows, h0, hps, List.map_cons, List.cons_append]

theorem populateRows_failure (cols : List Column) (fgen : Nat → FakeGen)
    (execB : Nat → Option Nat) :
    ∀ n pos i k cause, k < n → (∀ j, j < k → execB (i + j) = none) →
    execB (i + k) = some cause →
    ∃ ps : List (List (Option Value)),
      populateRows cols fgen execB pos i n =
        (ps.map Event.execute, PopResult.failed (i + k + 1) cause) ∧
      ps.length = k + 1 := by
  intro n
  induction n with
  | zero => intro pos i k cause hk; exact absurd hk (by omega)
  | succ m ih =>
    intro pos i k cause hk hpre hfail
    cases k with
    | zero =>
      have h0 : execB i = some cause := by simpa using hfail
      exact ⟨[genRow cols fgen pos], by simp [populateRows, h0], rfl⟩
    | succ k0 =>
      have h0 : execB i = none := by simpa using hpre 0 (Nat.succ_pos k0)
      obtain ⟨ps, hps, hl⟩ := ih (pos + cols.length) (i + 1) k0 cause (by omega)
        (fun j hj => by
          have := hpre (j + 1) (Nat.succ_lt_succ hj)
          rwa [show i + (j + 1) = i + 1 + j by omega] at this)
        (by rwa [show i + (k0 + 1) = i + 1 + k0 by omega] at hfail)
      refine ⟨genRow cols fgen pos :: ps, ?_, by simp [hl]⟩
      simp only [populateRows, h0, hps, List.map_cons]
      rw [show i + 1 + k0 + 1 = i + (k0 + 1) + 1 by omega]

/-! ### Generator range lemmas -/

theorem random_int_mem (lo hi : Int) (g : FakeGen) (h : lo ≤ hi) :
    lo ≤ random_int lo hi g ∧ random_int lo hi g ≤ hi := by
  unfold random_int
  have hm : 0 < (hi - lo + 1).toNat := by omega
  have h2 : g.rand_nat % (hi - lo + 1).toNat < (hi - lo + 1).toNat :=
    Nat.mod_lt _ hm
  omega

theorem uniform2_mem (a b : Rat) (g : FakeGen) (h : a ≤ b) :
    a ≤ uniform2 a b g ∧ uniform2 a b g ≤ b := by
  unfold uniform2
  have h1 : (0 : Rat) ≤ ((g.unif_nat % 1001 : Nat) : Rat) / 1000 := by positivity
  have h2 : ((g.unif_nat % 1001 : Nat) : Rat) / 1000 ≤ 1 := by
    have : g.unif_nat % 1001 < 1001 := Nat.mod_lt _ (by omega)
    have : ((g.unif_nat % 1001 : Nat) : Rat) ≤ 1000 := by exact_mod_cast by omega
    linarith
  constructor
  · nlinarith
  · nlinarith

theorem round2_mem (A B : Int) (q : Rat) (h1 : (A : Rat) ≤ q) (h2 : q ≤ (B : Rat)) :
    (A : Rat) ≤ round2 q ∧ round2 q ≤ (B : Rat) ∧
      ∃ z : Int, round2 q = (z : Rat) / 100 := by
  unfold round2
  have hlo : (100 * A : Int) ≤ round (100 * q) := by
    rw [round_eq]
    calc (100 * A : Int) = ⌊((100 * A : Int) : Rat)⌋ := (Int.floor_intCast _).symm
    _ ≤ ⌊100 * q + 1 / 2⌋ := by
        apply Int.floor_le_floor
        push_cast
        linarith
  have hhi : round (100 * q) ≤ (100 * B : Int) := by
    rw [round_eq]
    have : (100 * q + 1 / 2 : Rat) ≤ ((100 * B : Int) : Rat) + 1 / 2 := by
      push_cast; linarith
    calc ⌊(100 * q + 1 / 2 : Rat)⌋ ≤ ⌊((100 * B : Int) : Rat) + 1 / 2⌋ :=
        Int.floor_le_floor this
    _ = (100 * B : Int) := by
        rw [add_comm, Int.floor_add_int]
        norm_num
  refine ⟨?_, ?_, ⟨round (100 * q), rfl⟩⟩
  · have : ((100 * A : Int) : Rat) ≤ ((round (100 * q) : Int) : Rat) := by
      exact_mod_cast hlo
    rw [le_div_iff₀ (by norm_num : (0:Rat) < 100)]
    push_cast at this ⊢
    linarith
  · have : ((round (100 * q) : Int) : Rat) ≤ ((100 * B : Int) : Rat) := by
      exact_mod_cast hhi
    rw [div_le_iff₀ (by norm_num : (0:Rat) < 100)]
    push_cast at this ⊢
    linarith

/-! ### Generator type classes

The type classes of the specification, read off the priority order of the
branch guards: a type is in a class when its guard matches and no guard of
higher priority does. -/

/-- Integer class: the integer guard matches and the string guard does not. -/
def isIntClass (c : Column) : Bool := ! txtGuard c && intGuard c

/-- Decimal class: the decimal guard matches, no earlier guard does. -/
def isDecClass (c : Column) : Bool := ! txtGuard c && ! intGuard c && decGuard c

/-- Boolean class: the boolean guard matches, no earlier guard does. -/
def isBoolClass (c : Column) : Bool :=
  ! txtGuard c && ! intGuard c && ! decGuard c && ! dateGuard c && bitGuard c

/-- No semantic keyword of the string branch occurs in the lowered name, so
the textual fallback is taken. -/
def noNameKeyword (c : Column) : Bool :=
  ! (strHasSub (lowerStr c.name) "address" || strHasSub (lowerStr c.name) "street" ||
    strHasSub (lowerStr c.name) "city" || strHasSub (lowerStr c.name) "state" ||
    strHasSub (lowerStr c.name) "postal" || strHasSub (lowerStr c.name) "zip" ||
    strHasSub (lowerStr c.name) "country" || strHasSub (lowerStr c.name) "name" ||
    strHasSub (lowerStr c.name) "email" || strHasSub (lowerStr c.name) "phone" ||
    strHasSub (lowerStr c.name) "company")

/-- Declared length of a textual type: the parenthesized suffix, 50 when
absent, as read at lines 219-220 of the source. -/
def declared_length (c : Column) : Nat :=
  (parenLen (upperStr c.type)).getD 50

theorem pySlice_length (s : String) (n : Nat) : (pySlice s n).length ≤ n := by
  show (s.data.take n).length ≤ n
  exact List.length_take_le _ _

theorem textBranch_isSome (c : Column) (g : FakeGen) :
    (textBranch c g).isSome = true := by
  simp only [textBranch]
  repeat' split
  all_goals rfl

theorem generate_isSome (c : Column) (g : FakeGen)
    (h : defaultCreatedGuard c = false) :
    (generate_fake_data c g).isSome = true := by
  unfold generate_fake_data
  rw [h]
  simp only [Bool.false_eq_true, if_false]
  by_cases ht : txtGuard c = true
  · rw [if_pos ht]; exact textBranch_isSome c g
  · rw [if_neg ht]
    repeat' split
    all_goals rfl

theorem generate_none_iff (c : Column) (g : FakeGen) :
    generate_fake_data c g = none ↔ defaultCreatedGuard c = true := by
  constructor
  · intro hn
    by_contra hc
    have h : defaultCreatedGuard c = false := by simpa using hc
    have := generate_isSome c g h
    rw [hn] at this
    simp at this
  · intro h
    unfold generate_fake_data
    rw [if_pos h]

theorem generate_int_branch (c : Column) (g : FakeGen)
    (hnd : defaultCreatedGuard c = false) (ht : txtGuard c = false)
    (hi : intGuard c = true) :
    generate_fake_data c g =
      (if strHasSub (lowerStr c.name) "age" = true then
        some (Value.vint (random_int 18 80 g))
      else if strHasSub (lowerStr c.name) "year" = true then
        some (Value.vint (random_int 1950 2025 g))
      else some (Value.vint (random_int 1 1000 g))) := by
  unfold generate_fake_data
  rw [hnd, ht, hi]
  simp

theorem generate_dec_branch (c : Column) (g : FakeGen)
    (hnd : defaultCreatedGuard c = false) (ht : txtGuard c = false)
    (hi : intGuard c = false) (hd : decGuard c = true) :
    generate_fake_data c g =
      (if (strHasSub (lowerStr c.name) "price" || strHasSub (lowerStr c.name) "cost" ||
          strHasSub (lowerStr c.name) "amount") = true then
        some (Value.vdec (round2 (uniform2 10 1000 g)))
      else some (Value.vdec (round2 (uniform2 1 100 g)))) := by
  unfold generate_fake_data
  rw [hnd, ht, hi, hd]
  simp

theorem generate_bit_branch (c : Column) (g : FakeGen)
    (hnd : defaultCreatedGuard c = false) (ht : txtGuard c = false)
    (hi : intGuard c = false) (hd : decGuard c = false)
    (hdate : dateGuard c = false) (hb : bitGuard c = true) :
    generate_fake_data c g = some (Value.vbool g.bool_val) := by
  unfold generate_fake_data
  rw [hnd, ht, hi, hd, hdate, hb]
  simp

theorem generate_fallback_branch (c : Column) (g : FakeGen)
    (hnd : defaultCreatedGuard c = false) (ht : txtGuard c = true)
    (hk : noNameKeyword c = true) :
    generate_fake_data c g =
      some (Value.vstr (pySlice (g.text_fn (declared_length c / 2))
        (declared_length c))) := by
  unfold generate_fake_data
  rw [hnd, ht]
  simp only [Bool.false_eq_true, if_false, eq_self_iff_true, if_true]
  unfold noNameKeyword at hk
  simp only [Bool.not_eq_true', Bool.or_eq_false_iff] at hk
  obtain ⟨⟨⟨⟨⟨⟨⟨⟨⟨⟨k1, k2⟩, k3⟩, k4⟩, k5⟩, k6⟩, k7⟩, k8⟩, k9⟩, k10⟩, k11⟩ := hk
  unfold textBranch
  simp only [k1, k2, k3, k4, k5, k6, k7, k8, k9, k10, k11, Bool.or_self,
    Bool.false_eq_true, if_false]
  rfl

/-! ### Concrete fixtures -/

/-- A concrete entropy record with the raw entropy given explicitly. -/
def mkFG (r : Nat) : FakeGen :=
  ⟨"10 Smith St", "Sydney", "NSW", "2000", "Alice", "Jones", "Alice Jones",
    "a@example.com", "0400 000 000", "Acme", fun n => String.mk (List.replicate n 'x'),
    r, 500, true, "lorem", 3, 4⟩

/-- A fixed entropy record. -/
def wFG : FakeGen := mkFG 7

/-- The modelled shared Faker instance as a stream of entropy records. -/
def streamFG : Nat → FakeGen := fun n => mkFG n

/-! ### Claim C4 -/

/-- C4: Generator type-conformance. For every column, the generator yields
an integer value in the integer class, a rational value in the decimal
class, a boolean in the boolean class, and in the textual fallback case a
string no longer than the declared length; it yields the defer-to-default
sentinel `none` exactly when the column has a default and its lowered name
contains the word created. -/
theorem generator_type_conformance (c : Column) (g : FakeGen) :
    (generate_fake_data c g = none ↔
      (c.has_default = true ∧ strHasSub (lowerStr c.name) "created" = true)) ∧
    (isIntClass c = true →
      generate_fake_data c g = none ∨
        ∃ i : Int, generate_fake_data c g = some (Value.vint i)) ∧
    (isDecClass c = true →
      generate_fake_data c g = none ∨
        ∃ q : Rat, generate_fake_data c g = some (Value.vdec q)) ∧
    (isBoolClass c = true →
      generate_fake_data c g = none ∨
        ∃ b : Bool, generate_fake_data c g = some (Value.vbool b)) ∧
    (txtGuard c = true → noNameKeyword c = true →
      generate_fake_data c g = none ∨
        ∃ s : String, generate_fake_data c g = some (Value.vstr s) ∧
          s.length ≤ declared_length c) := by
  refine ⟨?_, ?_, ?_, ?_, ?_⟩
  · rw [generate_none_iff]
    unfold defaultCreatedGuard
    rw [Bool.and_eq_true]
  · intro hi
    by_cases hnd : defaultCreatedGuard c = true
    · exact Or.inl ((generate_none_iff c g).mpr hnd)
    · right
      have hnd' : defaultCreatedGuard c = false := by simpa using hnd
      simp only [isIntClass, Bool.and_eq_true, Bool.not_eq_true'] at hi
      rw [generate_int_branch c g hnd' hi.1 hi.2]
      by_cases ha : strHasSub (lowerStr c.name) "age" = true
      · exact ⟨_, by rw [if_pos ha]⟩
      · rw [if_neg ha]
        by_cases hy : strHasSub (lowerStr c.name) "year" = true
        · exact ⟨_, by rw [if_pos hy]⟩
        · exact ⟨_, by rw [if_neg hy]⟩
  · intro hd
    by_cases hnd : defaultCreatedGuard c = true
    · exact Or.inl ((generate_none_iff c g).mpr hnd)
    · right
      have hnd' : defaultCreatedGuard c = false := by simpa using hnd
      simp only [isDecClass, Bool.and_eq_true, Bool.not_eq_true'] at hd
      rw [generate_dec_branch c g hnd' hd.1.1 hd.1.2 hd.2]
      by_cases hm : (strHasSub (lowerStr c.name) "price" ||
          strHasSub (lowerStr c.name) "cost" ||
          strHasSub (lowerStr c.name) "amount") = true
      · exact ⟨_, by rw [if_pos hm]⟩
      · exact ⟨_, by rw [if_neg hm]⟩
  · intro hb
    by_cases hnd : defaultCreatedGuard c = true
    · exact Or.inl ((generate_none_iff c g).mpr hnd)
    · right
      have hnd' : defaultCreatedGuard c = false := by simpa using hnd
      simp only [isBoolClass, Bool.and_eq_true, Bool.not_eq_true'] at hb
      exact ⟨_, generate_bit_branch c g hnd' hb.1.1.1.1 hb.1.1.1.2 hb.1.1.2 hb.1.2 hb.2⟩
  · intro ht hk
    by_cases hnd : defaultCreatedGuard c = true
    · exact Or.inl ((generate_none_iff c g).mpr hnd)
    · right
      have hnd' : defaultCreatedGuard c = false := by simpa using hnd
      exact ⟨_, generate_fallback_branch c g hnd' ht hk, pySlice_length _ _⟩

/-- C4 witness: the integer-class conjunct applied to a concrete column. -/
theorem generator_type_conformance_witness :
    ∃ i : Int, generate_fake_data ⟨"qty", "INT", true, false⟩ wFG =
      some (Value.vint i) := by
  have h := (generator_type_conformance ⟨"qty", "INT", true, false⟩ wFG).2.1
    (by decide)
  rcases h with h | h
  · exact absurd h (by decide)
  · exact h

/-! ### Claim C7 -/

/-- An integer-class column with a default and a created-marked name. -/
def cexCol7 : Column := ⟨"CreatedAge", "INT", false, true⟩

/-- C7 counterexample: an integer-class column whose lowered name contains
the word age, on which the generator returns the sentinel `none` rather than
an integer in the range 18 to 80, because the default-and-created check of
line 189 precedes the type dispatch. -/
theorem numeric_range_cex :
    isIntClass cexCol7 = true ∧
    strHasSub (lowerStr cexCol7.name) "age" = true ∧
    generate_fake_data cexCol7 wFG = none := by
  refine ⟨by decide, by decide, ?_⟩
  rfl

/-- C7 (amended): the numeric range decision table, for every column that is
not a defaulted created-named column (on those the generator returns the
sentinel `none` instead). -/
theorem numeric_range_table (c : Column) (g : FakeGen)
    (hnd : ¬ (c.has_default = true ∧ strHasSub (lowerStr c.name) "created" = true)) :
    (isIntClass c = true →
      (strHasSub (lowerStr c.name) "age" = true →
        ∃ i : Int, generate_fake_data c g = some (Value.vint i) ∧
          18 ≤ i ∧ i ≤ 80) ∧
      (strHasSub (lowerStr c.name) "age" = false →
        strHasSub (lowerStr c.name) "year" = true →
        ∃ i : Int, generate_fake_data c g = some (Value.vint i) ∧
          1950 ≤ i ∧ i ≤ 2025) ∧
      (strHasSub (lowerStr c.name) "age" = false →
        strHasSub (lowerStr c.name) "year" = false →
        ∃ i : Int, generate_fake_data c g = some (Value.vint i) ∧
          1 ≤ i ∧ i ≤ 1000)) ∧
    (isDecClass c = true →
      ((strHasSub (lowerStr c.name) "price" || strHasSub (lowerStr c.name) "cost" ||
          strHasSub (lowerStr c.name) "amount") = true →
        ∃ q : Rat, generate_fake_data c g = some (Value.vdec q) ∧
          10 ≤ q ∧ q ≤ 1000 ∧ ∃ z : Int, q = (z : Rat) / 100) ∧
      ((strHasSub (lowerStr c.name) "price" || strHasSub (lowerStr c.name) "cost" ||
          strHasSub (lowerStr c.name) "amount") = false →
        ∃ q : Rat, generate_fake_data c g = some (Value.vdec q) ∧
          1 ≤ q ∧ q ≤ 100 ∧ ∃ z : Int, q = (z : Rat) / 100)) := by
  have hnd' : defaultCreatedGuard c = false := by
    by_contra hcon
    have h2 : defaultCreatedGuard c = true := by simpa using hcon
    rw [defaultCreatedGuard, Bool.and_eq_true] at h2
    exact hnd h2
  constructor
  · intro hi
    simp only [isIntClass, Bool.and_eq_true, Bool.not_eq_true'] at hi
    have hbr := generate_int_branch c g hnd' hi.1 hi.2
    refine ⟨?_, ?_, ?_⟩
    · intro ha
      rw [hbr, if_pos ha]
      exact ⟨_, rfl, random_int_mem 18 80 g (by norm_num)⟩
    · intro ha hy
      rw [hbr, if_neg (by simp [ha]), if_pos hy]
      exact ⟨_, rfl, random_int_mem 1950 2025 g (by norm_num)⟩
    · intro ha hy
      rw [hbr, if_neg (by simp [ha]), if_neg (by simp [hy])]
      exact ⟨_, rfl, random_int_mem 1 1000 g (by norm_num)⟩
  · intro hd
    simp only [isDecClass, Bool.and_eq_true, Bool.not_eq_true'] at hd
    have hbr := generate_dec_branch c g hnd' hd.1.1 hd.1.2 hd.2
    constructor
    · intro hm
      rw [hbr, if_pos hm]
      have hu := uniform2_mem 10 1000 g (by norm_num)
      have hr := round2_mem 10 1000 (uniform2 10 1000 g)
        (by exact_mod_cast hu.1) (by exact_mod_cast hu.2)
      refine ⟨_, rfl, by exact_mod_cast hr.1, by exact_mod_cast hr.2.1, hr.2.2⟩
    · intro hm
      rw [hbr, if_neg (by simp [hm])]
      have hu := uniform2_mem 1 100 g (by norm_num)
      have hr := round2_mem 1 100 (uniform2 1 100 g)
        (by exact_mod_cast hu.1) (by exact_mod_cast hu.2)
      refine ⟨_, rfl, by exact_mod_cast hr.1, by exact_mod_cast hr.2.1, hr.2.2⟩

/-- C7 witness: the age range applied to a concrete column. -/
theorem numeric_range_witness :
    ∃ i : Int, generate_fake_data ⟨"age", "INT", true, false⟩ wFG =
      some (Value.vint i) ∧ 18 ≤ i ∧ i ≤ 80 :=
  ((numeric_range_table ⟨"age", "INT", true, false⟩ wFG (by decide)).1
    (by decide)).1 (by decide)

/-! ### Claim C8 -/

/-- C8 counterexample: two consecutive generator calls through the shared
Faker instance, on equal column inputs, return different values and change
the shared position. -/
theorem generator_purity_cex :
    ((fake_call streamFG 0 ⟨"n", "INT", true, false⟩).1 ≠
      (fake_call streamFG (fake_call streamFG 0 ⟨"n", "INT", true, false⟩).2
        ⟨"n", "INT", true, false⟩).1) ∧
    (fake_call streamFG 0 ⟨"n", "INT", true, false⟩).2 ≠ 0 := by
  constructor
  · decide
  · decide

/-- C8 (amended): the generator is a deterministic function of the column
type, name, default flag and the current entropy record of the shared
random source; the nullable flag is not read. -/
theorem generator_purity_amended (c1 c2 : Column) (g : FakeGen)
    (ht : c1.type = c2.type) (hn : c1.name = c2.name)
    (hd : c1.has_default = c2.has_default) :
    generate_fake_data c1 g = generate_fake_data c2 g := by
  cases c1 with
  | mk n1 t1 u1 d1 =>
    cases c2 with
    | mk n2 t2 u2 d2 =>
      simp only at ht hn hd
      subst ht; subst hn; subst hd
      rfl

/-- C8 witness: the amended statement applied to two concrete columns that
differ only in the nullable flag. -/
theorem generator_purity_witness :
    generate_fake_data ⟨"a", "INT", true, false⟩ wFG =
      generate_fake_data ⟨"a", "INT", false, false⟩ wFG :=
  generator_purity_amended ⟨"a", "INT", true, false⟩ ⟨"a", "INT", false, false⟩
    wFG rfl rfl rfl

/-! ### Claim C10 -/

/-- C10: a physical line whose upper-cased text contains PRIMARY KEY or
CONSTRAINT anywhere as a substring produces no column model, including a
single-column declaration with an inline column-level primary key. -/
theorem constraint_line_skip (line : String)
    (h : strHasSub (upperStr line) "PRIMARY KEY" = true ∨
      strHasSub (upperStr line) "CONSTRAINT" = true) :
    parseColLine line = none :=
  parseColLine_of_constraint line h

/-- C10 witness: the inline column-level primary key of the claim. -/
theorem constraint_line_skip_witness : parseColLine "Id INT PRIMARY KEY" = none :=
  constraint_line_skip "Id INT PRIMARY KEY" (Or.inl (by decide))

/-! ### Claim C2 -/

/-- C2: Eligible-column selection. For every parsed schema, the column list
of the insert statement is exactly, in declaration order, the columns of
lines without an identity marker whose default flag is false; a line with an
identity marker never produces a column at all, and each eligible column is
bound to exactly one generated parameter, so a defaulted column gets no
bound null. -/
theorem eligible_column_selection (fp content : String) (t : TableSchema)
    (h : parse_table_schema fp content = some t) :
    ∃ lines : List String,
      t.columns = lines.filterMap parseColLine ∧
      insert_columns t = (eligible_by_line lines).map (fun c => c.name) ∧
      (∀ l : String, strHasSub (upperStr l) "IDENTITY" = true →
        parseColLine l = none) ∧
      (∀ (cols : List Column) (fgen : Nat → FakeGen) (pos : Nat),
        (genRow cols fgen pos).length = cols.length) := by
  unfold parse_table_schema at h
  cases hsn : searchName content.data with
  | none => rw [hsn] at h; exact absurd h (by simp)
  | some tn =>
    rw [hsn] at h
    cases hsd : searchDef content.data with
    | none =>
      rw [hsd] at h
      have h2 : (⟨String.mk tn, [], fp⟩ : TableSchema) = t := Option.some.inj h
      refine ⟨[], by rw [← h2]; rfl, ?_,
        fun l hl => parseColLine_of_identity l hl,
        fun cols fgen pos => genRow_length cols fgen pos⟩
      rw [← h2]
      rfl
    | some d =>
      rw [hsd] at h
      have h2 : (⟨String.mk tn,
          ((splitOnSep '\n' d).map String.mk).filterMap parseColLine, fp⟩ :
          TableSchema) = t := Option.some.inj h
      refine ⟨(splitOnSep '\n' d).map String.mk, by rw [← h2], ?_,
        fun l hl => parseColLine_of_identity l hl,
        fun cols fgen pos => genRow_length cols fgen pos⟩
      rw [← h2]
      show ((((splitOnSep '\n' d).map String.mk).filterMap parseColLine).filter
        (fun c => ! c.has_default)).map (fun c => c.name) = _
      rw [eligible_eq]

/-- The scenario schema text laid out with one column declaration per
physical line. -/
def addressesMultiLine : String :=
  "CREATE TABLE Addresses (\n    Id INT IDENTITY(1,1) NOT NULL,\n    StreetAddress NVARCHAR(255) NOT NULL,\n    City NVARCHAR(100) NULL,\n    CreatedAt DATETIME2 NOT NULL DEFAULT SYSDATETIME(),\n    CONSTRAINT PK_Addresses PRIMARY KEY (Id)\n)"

/-- The parsed scenario schema. -/
def addressesSchema : TableSchema :=
  ⟨"Addresses",
    [⟨"StreetAddress", "NVARCHAR(255)", false, false⟩,
      ⟨"City", "NVARCHAR(100)", true, false⟩,
      ⟨"CreatedAt", "DATETIME2", false, true⟩],
    "addresses.sql"⟩

/-- C2 witness: the selection statement applied to the parsed scenario
schema. -/
theorem eligible_column_selection_witness :
    ∃ lines : List String,
      addressesSchema.columns = lines.filterMap parseColLine ∧
      insert_columns addressesSchema =
        (eligible_by_line lines).map (fun c => c.name) ∧
      (∀ l : String, strHasSub (upperStr l) "IDENTITY" = true →
        parseColLine l = none) ∧
      (∀ (cols : List Column) (fgen : Nat → FakeGen) (pos : Nat),
        (genRow cols fgen pos).length = cols.length) :=
  eligible_column_selection "addresses.sql" addressesMultiLine addressesSchema rfl

/-! ### Claim C1 -/

/-- C1: Batch atomicity. For a schema with a non-empty eligible set: when
all N execute calls succeed the trace is exactly N executes followed by one
commit; when call k (one-based) is the first to fail, the trace is exactly k
executes and no commit, and the outcome carries the one-based row index k
and the underlying cause. -/
theorem batch_atomicity (t : TableSchema) (fgen : Nat → FakeGen)
    (execB : Nat → Option Nat) (N : Nat)
    (hne : t.columns.filter (fun c => ! c.has_default) ≠ []) :
    ((∀ j, j < N → execB j = none) →
      ∃ ps : List (List (Option Value)),
        populate_table t (N : Int) fgen execB =
          (ps.map Event.execute ++ [Event.commit], PopResult.success) ∧
        ps.length = N ∧
        countExec (ps.map Event.execute ++ [Event.commit]) = N ∧
        countCommit (ps.map Event.execute ++ [Event.commit]) = 1) ∧
    (∀ k cause, 1 ≤ k → k ≤ N →
      (∀ j, j < k - 1 → execB j = none) → execB (k - 1) = some cause →
      ∃ ps : List (List (Option Value)),
        populate_table t (N : Int) fgen execB =
          (ps.map Event.execute, PopResult.failed k cause) ∧
        countExec (ps.map Event.execute) = k ∧
        countCommit (ps.map Event.execute) = 0) := by
  have hpt : populate_table t (N : Int) fgen execB =
      populateRows (t.columns.filter (fun c => ! c.has_default)) fgen execB 0 0 N := by
    unfold populate_table
    rw [if_neg hne, Int.toNat_natCast]
  constructor
  · intro hall
    obtain ⟨ps, hps, hl⟩ := populateRows_success
      (t.columns.filter (fun c => ! c.has_default)) fgen execB N 0 0
      (fun j hj => by simpa using hall j hj)
    refine ⟨ps, by rw [hpt, hps], hl, ?_, ?_⟩
    · rw [countExec_append, countExec_map, hl]
      rfl
    · rw [countCommit_append, countCommit_map]
      rfl
  · intro k cause hk1 hkN hpre hfail
    obtain ⟨ps, hps, hl⟩ := populateRows_failure
      (t.columns.filter (fun c => ! c.has_default)) fgen execB N 0 0 (k - 1) cause
      (by omega) (fun j hj => by simpa using hpre j hj) (by simpa using hfail)
    rw [show 0 + (k - 1) + 1 = k by omega] at hps
    refine ⟨ps, by rw [hpt, hps], ?_, countCommit_map ps⟩
    rw [countExec_map, hl]
    omega

/-- A one-eligible-column schema for the C1 witness. -/
def wSchema : TableSchema := ⟨"T", [⟨"x", "INT", true, false⟩], "t.sql"⟩

/-- C1 witness: the all-success half applied at row count 2 with an executor
that never fails. -/
theorem batch_atomicity_witness :
    ∃ ps : List (List (Option Value)),
      populate_table wSchema (2 : Int) streamFG (fun _ => none) =
        (ps.map Event.execute ++ [Event.commit], PopResult.success) ∧
      ps.length = 2 ∧
      countExec (ps.map Event.execute ++ [Event.commit]) = 2 ∧
      countCommit (ps.map Event.execute ++ [Event.commit]) = 1 :=
  (batch_atomicity wSchema streamFG (fun _ => none) 2 (by decide)).1
    (fun _ _ => rfl)

/-! ### Claim C3 -/

/-- The scenario schema text exactly as written in the claim: one physical
line. -/
def addressesOneLine : String :=
  "CREATE TABLE Addresses (Id INT IDENTITY(1,1) NOT NULL, StreetAddress NVARCHAR(255) NOT NULL, City NVARCHAR(100) NULL, CreatedAt DATETIME2 NOT NULL DEFAULT SYSDATETIME(), CONSTRAINT PK_Addresses PRIMARY KEY (Id))"

set_option maxRecDepth 100000 in
/-- C3 counterexample: parsing the exact one-line schema text of the claim
yields an empty column list — the whole block is a single physical line
containing PRIMARY KEY and CONSTRAINT, so it is skipped — and populating the
result with row count 3 is a no-op with zero executes and zero commits,
not 3 executes and one commit. -/
theorem simple_scenario_cex :
    parse_table_schema "addresses.sql" addressesOneLine =
      some ⟨"Addresses", [], "addresses.sql"⟩ ∧
    populate_table ⟨"Addresses", [], "addresses.sql"⟩ 3 streamFG (fun _ => none) =
      ([], PopResult.noop) :=
  ⟨rfl, rfl⟩

/-- C3 (amended): with each column declaration of the same schema on its own
physical line, parsing yields table Addresses with eligible columns exactly
StreetAddress and City (Id excluded as identity, CreatedAt excluded as
default), and populating with row count 3 issues exactly 3 executes, each
binding 2 parameters, followed by exactly one commit. -/
theorem simple_scenario_multiline :
    parse_table_schema "addresses.sql" addressesMultiLine = some addressesSchema ∧
    insert_columns addressesSchema = ["StreetAddress", "City"] ∧
    ∀ fgen : Nat → FakeGen,
      ∃ p1 p2 p3 : List (Option Value),
        populate_table addressesSchema 3 fgen (fun _ => none) =
          ([Event.execute p1, Event.execute p2, Event.execute p3, Event.commit],
            PopResult.success) ∧
        p1.length = 2 ∧ p2.length = 2 ∧ p3.length = 2 := by
  refine ⟨rfl, rfl, ?_⟩
  intro fgen
  refine ⟨genRow (addressesSchema.columns.filter (fun c => ! c.has_default)) fgen 0,
    genRow (addressesSchema.columns.filter (fun c => ! c.has_default)) fgen 2,
    genRow (addressesSchema.columns.filter (fun c => ! c.has_default)) fgen 4,
    rfl, ?_, ?_, ?_⟩
  · exact (genRow_length _ fgen 0).trans rfl
  · exact (genRow_length _ fgen 2).trans rfl
  · exact (genRow_length _ fgen 4).trans rfl

/-! ### Claim C5 -/

/-- C5 counterexample: a schema text in which a table name is found but no
parenthesized block follows parses to a schema — table name Foo with an
empty column list — rather than failing with no schema returned. -/
theorem malformed_block_cex :
    parse_table_schema "f.sql" "CREATE TABLE Foo" = some ⟨"Foo", [], "f.sql"⟩ :=
  rfl

/-- C5 (amended): whenever the table-name search succeeds but the
column-block search fails (missing or unbalanced parentheses), parse
returns a schema carrying the table name and an empty column list; no
failure is reported to the caller. -/
theorem malformed_block_amended (fp content : String) (tn : List Char)
    (h1 : searchName content.data = some tn)
    (h2 : searchDef content.data = none) :
    parse_table_schema fp content = some ⟨String.mk tn, [], fp⟩ := by
  unfold parse_table_schema
  rw [h1, h2]

/-- C5 witness: an unbalanced block. -/
theorem malformed_block_witness :
    parse_table_schema "g.sql" "CREATE TABLE Bar (x INT" =
      some ⟨"Bar", [], "g.sql"⟩ :=
  malformed_block_amended "g.sql" "CREATE TABLE Bar (x INT" "Bar".data rfl rfl

/-! ### Claim C6 -/

/-- C6 counterexample: populate called directly with row count 0 on a schema
with one eligible column performs no execute but still issues one commit and
reports success, instead of being rejected before any executor interaction. -/
theorem invalid_row_count_cex :
    populate_table wSchema 0 streamFG (fun _ => none) =
      ([Event.commit], PopResult.success) ∧
    countCommit [Event.commit] = 1 :=
  ⟨rfl, rfl⟩

/-- C6 (amended): populate itself does not validate the row count. For any
non-positive count and any schema with a non-empty eligible set it performs
zero executes and still issues exactly one commit, reporting success;
non-positive counts are rejected upstream by the interactive prompt of main
before populate is called. -/
theorem invalid_row_count_amended (t : TableSchema) (count : Int)
    (fgen : Nat → FakeGen) (execB : Nat → Option Nat)
    (hc : count ≤ 0)
    (hne : t.columns.filter (fun c => ! c.has_default) ≠ []) :
    populate_table t count fgen execB = ([Event.commit], PopResult.success) := by
  unfold populate_table
  rw [if_neg hne]
  have h0 : count.toNat = 0 := by omega
  rw [h0]
  rfl

/-- C6 witness: a negative row count. -/
theorem invalid_row_count_witness :
    populate_table wSchema (-5) streamFG (fun _ => none) =
      ([Event.commit], PopResult.success) :=
  invalid_row_count_amended wSchema (-5) streamFG (fun _ => none)
    (by norm_num) (by decide)

/-! ### Claim C9 -/

/-- C9 counterexample: for the declaration line Price decimal(10, 2) NOT
NULL the stored type is the upper-cased second token DECIMAL(10, — neither
the type as written (case is normalized) nor its whitespace-free form
DECIMAL(10,2) (the suffix is cut at the internal whitespace). -/
theorem declared_type_cex :
    (parseColLine "Price decimal(10, 2) NOT NULL").map (fun c => c.type) =
      some "DECIMAL(10," ∧
    ("DECIMAL(10," : String) ≠ "decimal(10, 2)" ∧
    ("DECIMAL(10," : String) ≠ "DECIMAL(10,2)" :=
  ⟨rfl, by decide, by decide⟩

/-- C9 (amended): the stored type of every parsed column is the upper-cased
second whitespace-delimited token of the stripped declaration line, and the
stored name is the first token with commas stripped. -/
theorem declared_type_amended (line : String) (c : Column)
    (h : parseColLine line = some c) :
    ∃ (p0 p1 : String) (rest : List String),
      pySplitWs (pyStrip line) = p0 :: p1 :: rest ∧
      c.type = upperStr p1 ∧ c.name = stripCommaEnds p0 := by
  simp only [parseColLine] at h
  split at h
  · simp at h
  split at h
  · simp at h
  split at h
  · simp at h
  split at h
  · simp at h
  split at h
  case _ p0 p1 tail heq =>
    split at h
    · simp at h
    · refine ⟨p0, p1, tail, heq, ?_, ?_⟩
      · rw [← Option.some.inj h]
      · rw [← Option.some.inj h]
  · simp at h

/-- C9 witness: the amended statement applied to a concrete line. -/
theorem declared_type_witness :
    ∃ (p0 p1 : String) (rest : List String),
      pySplitWs (pyStrip "City NVARCHAR(100) NULL,") = p0 :: p1 :: rest ∧
      (⟨"City", "NVARCHAR(100)", true, false⟩ : Column).type = upperStr p1 ∧
      (⟨"City", "NVARCHAR(100)", true, false⟩ : Column).name = stripCommaEnds p0 :=
  declared_type_amended "City NVARCHAR(100) NULL,"
    ⟨"City", "NVARCHAR(100)", true, false⟩ rfl

end Populate
